import Mathlib

/-!
Verification of the client scripts of the `contracts` repository.

The repository consists of small TypeScript command-line scripts that build
one Solana transaction each:
  * `src/client-lib/increment-worker.ts` holds two scripts separated by a
    document marker: the increment-step script (borsh variant 4) and the
    quantity script (borsh variant 2);
  * `src/unnamed/part_001` is the read script (borsh variant 3);
  * `src/client-lib/create-contract.ts` and `src/unnamed/part_000` /
    `src/unnamed/part_002` are thin callers into a `contract-client` module
    that is not among the source files.

The embedding below models bytes as `List Nat` (each entry a byte value),
identifier strings by their UTF-8 byte sequences, and JavaScript numbers
produced by `parseInt` by the type `JSNum` (an integer or the NaN sentinel).
-/

namespace Contracts

/-- A byte sequence.  Well-formed data has every entry `< 256`. -/
abbrev Bytes := List Nat

/-- Little-endian fixed-width byte encoding: `leBytes w n` is the `w`-byte
little-endian encoding of `n % 256 ^ w`.  This is the layout the borsh
library uses for its `u32` (length prefixes) and `u64` fields. -/
def leBytes : Nat → Nat → Bytes
  | 0, _ => []
  | w + 1, n => n % 256 :: leBytes w (n / 256)

/-- Little-endian interpretation of a byte sequence as a natural number. -/
def fromLE : Bytes → Nat
  | [] => 0
  | b :: bs => b + 256 * fromLE bs

theorem length_leBytes (w n : Nat) : (leBytes w n).length = w := by
  induction w generalizing n with
  | zero => rfl
  | succ k ih => simp [leBytes, ih]

theorem fromLE_leBytes (w n : Nat) : fromLE (leBytes w n) = n % 256 ^ w := by
  induction w generalizing n with
  | zero => simp [leBytes, fromLE, Nat.mod_one]
  | succ k ih =>
      have hp : (256 : Nat) ^ (k + 1) = 256 * 256 ^ k := by ring
      simp only [leBytes, fromLE, ih, hp, Nat.mod_mul]

/-- The record serialized by every script; `echoSchema` in the sources is
`{ struct: { variant: u8, id: string, number: u64 } }`.  The `id`
field carries the UTF-8 bytes of the identifier. -/
structure EchoRecord where
  variant : Nat
  id : Bytes
  number : Nat
deriving DecidableEq, Repr

/-- Borsh serialization of an `EchoRecord` following `echoSchema`:
one `u8` (the variant, reduced to a byte), a `u32` little-endian byte
length of the string, the string bytes, then a `u64` little-endian number.
Mirrors `borsh.serialize(echoSchema, ...)` in the scripts. -/
def serializeEcho (r : EchoRecord) : Bytes :=
  r.variant % 256 :: (leBytes 4 r.id.length ++ (r.id ++ leBytes 8 r.number))

/-- A decoder for the fixed layout of `echoSchema` (§4.1 of the spec):
one discriminant byte, a 4-byte little-endian length, that many string
bytes, then exactly 8 number bytes. -/
def decodeEcho (bs : Bytes) : Option EchoRecord :=
  match bs with
  | [] => none
  | v :: rest =>
      if 4 ≤ rest.length then
        if (rest.drop 4).length = fromLE (rest.take 4) + 8 then
          some ⟨v, (rest.drop 4).take (fromLE (rest.take 4)),
                fromLE ((rest.drop 4).drop (fromLE (rest.take 4)))⟩
        else none
      else none

/-- A record whose fields fit the wire widths of `echoSchema`:
a one-byte variant, a `u32` string length and a `u64` number. -/
def validRecord (r : EchoRecord) : Prop :=
  r.variant < 256 ∧ r.id.length < 2 ^ 32 ∧ r.number < 2 ^ 64

instance (r : EchoRecord) : Decidable (validRecord r) := by
  unfold validRecord; infer_instance

theorem decodeEcho_serializeEcho (v n : Nat) (id : Bytes) (hL : id.length < 2 ^ 32) :
    decodeEcho (serializeEcho ⟨v, id, n⟩) = some ⟨v % 256, id, n % 2 ^ 64⟩ := by
  have h4 : (leBytes 4 id.length).length = 4 := length_leBytes 4 _
  have htake : (leBytes 4 id.length ++ (id ++ leBytes 8 n)).take 4 = leBytes 4 id.length :=
    List.take_left' h4
  have hdrop : (leBytes 4 id.length ++ (id ++ leBytes 8 n)).drop 4 = id ++ leBytes 8 n :=
    List.drop_left' h4
  have hfrom4 : fromLE (leBytes 4 id.length) = id.length := by
    rw [fromLE_leBytes]
    exact Nat.mod_eq_of_lt (lt_of_lt_of_le hL (by norm_num))
  have htake2 : (id ++ leBytes 8 n).take id.length = id := List.take_left' rfl
  have hdrop2 : (id ++ leBytes 8 n).drop id.length = leBytes 8 n := List.drop_left' rfl
  have hfrom8 : fromLE (leBytes 8 n) = n % 2 ^ 64 := by
    rw [fromLE_leBytes]; norm_num
  have hblen : (leBytes 4 id.length ++ (id ++ leBytes 8 n)).length = 4 + (id.length + 8) := by
    simp [length_leBytes]
  have hlen2 : (id ++ leBytes 8 n).length = id.length + 8 := by
    simp [length_leBytes]
  show decodeEcho (v % 256 :: (leBytes 4 id.length ++ (id ++ leBytes 8 n))) = _
  simp only [decodeEcho, htake, hdrop, hfrom4, htake2, hdrop2, hfrom8, hblen, hlen2]
  simp

/-- A JavaScript number as produced by `parseInt`: either an integer value
or the NaN sentinel (malformed input). -/
inductive JSNum where
  | num : Int → JSNum
  | nan : JSNum
deriving DecidableEq, Repr

/-- Whitespace skipped by JavaScript `parseInt` before reading digits. -/
def jsWhitespace (c : Char) : Bool :=
  c == ' ' || c == '\t' || c == '\n' || c == '\r'

/-- Decimal digit value of a character, if any. -/
def decDigit (c : Char) : Option Nat :=
  if 48 ≤ c.toNat ∧ c.toNat ≤ 57 then some (c.toNat - 48) else none

/-- Hexadecimal digit value of a character, if any. -/
def hexDigit (c : Char) : Option Nat :=
  if 48 ≤ c.toNat ∧ c.toNat ≤ 57 then some (c.toNat - 48)
  else if 97 ≤ c.toNat ∧ c.toNat ≤ 102 then some (c.toNat - 87)
  else if 65 ≤ c.toNat ∧ c.toNat ≤ 70 then some (c.toNat - 55)
  else none

/-- Accumulate the longest digit run at the front of the character list,
stopping at the first non-digit (JavaScript `parseInt` semantics). -/
def digitsAcc (base : Nat) (dig : Char → Option Nat) : List Char → Nat → Nat
  | [], acc => acc
  | c :: cs, acc =>
      match dig c with
      | some d => digitsAcc base dig cs (acc * base + d)
      | none => acc

/-- JavaScript `parseInt(s)` (no radix argument): skip whitespace, read an
optional sign, honour a `0x`/`0X` prefix as hexadecimal, then read the
longest digit prefix; if no digit is present the result is NaN. -/
def parseIntJS (s : String) : JSNum :=
  let cs0 := s.toList.dropWhile jsWhitespace
  let signed : Int × List Char :=
    match cs0 with
    | '-' :: r => (-1, r)
    | '+' :: r => (1, r)
    | r => (1, r)
  let stripped : Bool × List Char :=
    match signed.2 with
    | '0' :: 'x' :: r => (true, r)
    | '0' :: 'X' :: r => (true, r)
    | r => (false, r)
  let dig := if stripped.1 then hexDigit else decDigit
  let base := if stripped.1 then 16 else 10
  match stripped.2 with
  | [] => .nan
  | c :: _ =>
      match dig c with
      | some _ => .num (signed.1 * (digitsAcc base dig stripped.2 0 : Nat))
      | none => .nan

/-- The `u64` value a `JSNum` contributes to the borsh `number` field.
An integer is reduced modulo `2 ^ 64` (the fixed-width wrap of the
64-bit field).  Modelled from the spec for the NaN case: §4.1 states a
malformed (NaN) quantity is still encoded into the fixed-width field —
the borsh library is external to the repository and the sources fix no
bit pattern, so NaN is modelled as the zero word (the ECMAScript integer
conversion of NaN). -/
def u64OfJS : JSNum → Nat
  | .num n => (n % (2 ^ 64 : Int)).toNat
  | .nan => 0

/-! ### Program-derived addresses

The scripts call `PublicKey.findProgramAddressSync` of `@solana/web3.js`
(an external dependency).  Its documented semantics are embedded here:
for bump values 255 down to 1, compute
`sha256(seed₀ ∥ … ∥ seedₙ ∥ [bump] ∥ programId ∥ "ProgramDerivedAddress")`,
reject any seed longer than 32 bytes, and return the first digest that is
not a valid ed25519 compressed point. -/

/-- 32-bit right rotation (operand assumed `< 2 ^ 32`). -/
def rotr32 (x n : Nat) : Nat :=
  ((x >>> n) ||| (x <<< (32 - n))) % 2 ^ 32

/-- SHA-256 round constants (decimal values of the FIPS 180-4 table). -/
def sha256K : List Nat :=
  [1116352408, 1899447441, 3049323471, 3921009573, 961987163,
   1508970993, 2453635748, 2870763221, 3624381080, 310598401,
   607225278, 1426881987, 1925078388, 2162078206, 2614888103,
   3248222580, 3835390401, 4022224774, 264347078, 604807628,
   770255983, 1249150122, 1555081692, 1996064986, 2554220882,
   2821834349, 2952996808, 3210313671, 3336571891, 3584528711,
   113926993, 338241895, 666307205, 773529912, 1294757372,
   1396182291, 1695183700, 1986661051, 2177026350, 2456956037,
   2730485921, 2820302411, 3259730800, 3345764771, 3516065817,
   3600352804, 4094571909, 275423344, 430227734, 506948616,
   659060556, 883997877, 958139571, 1322822218, 1537002063,
   1747873779, 1955562222, 2024104815, 2227730452, 2361852424,
   2428436474, 2756734187, 3204031479, 3329325298]

/-- SHA-256 initial hash state (decimal values of the FIPS 180-4 table). -/
def sha256H0 : List Nat :=
  [1779033703, 3144134277, 1013904242, 2773480762,
   1359893119, 2600822924, 528734635, 1541459225]

/-- Group a byte list into big-endian 32-bit words. -/
def toWordsBE : Bytes → List Nat
  | a :: b :: c :: d :: rest => (((a * 256 + b) * 256 + c) * 256 + d) :: toWordsBE rest
  | _ => []

/-- Extend a 16-word message block by `count` schedule words. -/
def sha256Extend : Nat → List Nat → List Nat
  | 0, ws => ws
  | c + 1, ws =>
      let i := ws.length
      let w15 := ws.getD (i - 15) 0
      let w2 := ws.getD (i - 2) 0
      let w16 := ws.getD (i - 16) 0
      let w7 := ws.getD (i - 7) 0
      let s0 := (rotr32 w15 7) ^^^ (rotr32 w15 18) ^^^ (w15 >>> 3)
      let s1 := (rotr32 w2 17) ^^^ (rotr32 w2 19) ^^^ (w2 >>> 10)
      sha256Extend c (ws ++ [(w16 + s0 + w7 + s1) % 2 ^ 32])

/-- One block of SHA-256 compression rounds over paired schedule words and
round constants.  The state is the eight working variables `a..h`. -/
def sha256Rounds (st : List Nat) (wk : List (Nat × Nat)) : List Nat :=
  wk.foldl
    (fun st p =>
      match st with
      | [a, b, c, d, e, f, g, h] =>
          let s1 := rotr32 e 6 ^^^ rotr32 e 11 ^^^ rotr32 e 25
          let ch := (e &&& f) ^^^ ((e ^^^ (2 ^ 32 - 1)) &&& g)
          let t1 := (h + s1 + ch + p.2 + p.1) % 2 ^ 32
          let s0 := rotr32 a 2 ^^^ rotr32 a 13 ^^^ rotr32 a 22
          let mj := (a &&& b) ^^^ (a &&& c) ^^^ (b &&& c)
          let t2 := (s0 + mj) % 2 ^ 32
          [(t1 + t2) % 2 ^ 32, a, b, c, (d + t1) % 2 ^ 32, e, f, g]
      | other => other)
    st

/-- Merkle–Damgård padding: append `0x80`, zero bytes to 56 mod 64, then
the bit length as an 8-byte big-endian integer. -/
def sha256Pad (m : Bytes) : Bytes :=
  m ++ 0x80 :: List.replicate ((64 + 55 - m.length % 64) % 64) 0
    ++ (leBytes 8 (8 * m.length)).reverse

/-- Process `blocks` 64-byte chunks of `bs`, threading the hash state. -/
def sha256Chunks : Nat → List Nat → Bytes → List Nat
  | 0, h, _ => h
  | b + 1, h, bs =>
      let ws := sha256Extend 48 (toWordsBE (bs.take 64))
      let st := sha256Rounds h (ws.zip sha256K)
      let h2 := (h.zip st).map (fun p => (p.1 + p.2) % 2 ^ 32)
      sha256Chunks b h2 (bs.drop 64)

/-- SHA-256 of a byte sequence, as a 32-byte digest. -/
def sha256 (m : Bytes) : Bytes :=
  let p := sha256Pad m
  let h := sha256Chunks (p.length / 64) sha256H0 p
  (h.map (fun w => (leBytes 4 w).reverse)).flatten

/-- The ed25519 field prime `2 ^ 255 - 19`. -/
def p25519 : Nat := 2 ^ 255 - 19

/-- The twisted-Edwards curve constant `d = -121665 / 121666 (mod p)`. -/
def d25519 : Nat :=
  37095705934669439343138083508754565189542113879843219016388785533085940283555

/-- A square root of `-1` modulo `p25519`, namely `2 ^ ((p - 1) / 4)`. -/
def sqrtM1 : Nat :=
  19681161376707505956807079304988542015446066515923890162744021073123829784752

/-- Fuel-driven fast modular exponentiation (`powModAux (e + 1) b e m`
computes `b ^ e % m`; the fuel strictly dominates the halving depth, so
the exhausted branch is never reached for that fuel). -/
def powModAux : Nat → Nat → Nat → Nat → Nat
  | 0, _, _, _ => 1
  | fuel + 1, b, e, m =>
      if e = 0 then 1 % m
      else
        let h := powModAux fuel ((b * b) % m) (e / 2) m
        if e % 2 = 1 then h * b % m else h

/-- `b ^ e % m` by binary exponentiation. -/
def powMod (b e m : Nat) : Nat := powModAux (e + 1) b e m

/-- Whether 32 bytes form a valid compressed ed25519 point, i.e. whether
strict point decompression succeeds: read `y` little-endian with the top
bit as the sign of `x`, require `y < p`, recover `x` from
`x ^ 2 = (y ^ 2 - 1) / (d y ^ 2 + 1)` via the `(p - 5) / 8` exponent, and
reject when no root exists or when `x = 0` with the sign bit set.  This is
the check `findProgramAddressSync` applies to each candidate digest. -/
def isOnCurve (bs : Bytes) : Bool :=
  bs.length == 32 &&
    (let last := bs.getD 31 0
     let signBit := last / 128
     let y := fromLE (bs.take 31 ++ [last % 128])
     if p25519 ≤ y then false
     else
       let y2 := y * y % p25519
       let u := (y2 + p25519 - 1) % p25519
       let v := (d25519 * y2 + 1) % p25519
       let v3 := v * v % p25519 * v % p25519
       let v7 := v3 * v3 % p25519 * v % p25519
       let x0 := u * v3 % p25519 * powMod (u * v7 % p25519) ((p25519 - 5) / 8) p25519 % p25519
       let vxx := v * x0 % p25519 * x0 % p25519
       if vxx = u then !(x0 == 0 && signBit == 1)
       else if vxx = (p25519 - u) % p25519 then
         !(x0 * sqrtM1 % p25519 == 0 && signBit == 1)
       else false)

/-- The base58 alphabet used for Solana addresses. -/
def base58Alphabet : String :=
  "123456789ABCDEFGHJKLMNPQRSTUVWXYZabcdefghijkmnopqrstuvwxyz"

/-- Decode a base58 public-key string into its 32 bytes (big-endian value
of the base58 digits, left-padded with zero bytes). -/
def pubkeyFromBase58 (s : String) : Bytes :=
  (leBytes 32
    (s.toList.foldl
      (fun a c => a * 58 + List.findIdx (fun x => x == c) base58Alphabet.toList) 0)).reverse

/-- The fixed target program of every script:
`new PublicKey("D1JKf9t3tEBzP7jES8bUzCQdLSYSqfcJ2S558AbQruJm")`. -/
def programId : Bytes :=
  pubkeyFromBase58 "D1JKf9t3tEBzP7jES8bUzCQdLSYSqfcJ2S558AbQruJm"

/-- `SystemProgram.programId` — the all-zero address. -/
def systemProgramId : Bytes :=
  pubkeyFromBase58 "11111111111111111111111111111111"

/-- The domain-separation marker appended by program-address derivation. -/
def pdaMarker : Bytes := "ProgramDerivedAddress".toList.map Char.toNat

/-- Failure modes of program-address derivation: a seed over 32 bytes
(a thrown `TypeError`), a candidate that is on the curve (the per-bump
retry error), and bump exhaustion. -/
inductive PdaError where
  | maxSeedLength
  | invalidSeeds
  | noViableNonce
deriving DecidableEq, Repr

/-- `PublicKey.createProgramAddressSync`: reject any seed longer than 32
bytes, hash the concatenated seeds with the program id and the
domain-separation marker, and fail if the digest is on the curve. -/
def createProgramAddress (seeds : List Bytes) (prog : Bytes) : Except PdaError Bytes :=
  if seeds.any (fun s => decide (32 < s.length)) then .error .maxSeedLength
  else
    let addr := sha256 (seeds.flatten ++ prog ++ pdaMarker)
    if isOnCurve addr then .error .invalidSeeds else .ok addr

/-- Bump search of `findProgramAddressSync`: try bump values `n, n-1, …, 1`,
returning the first off-curve address (with its bump), propagating a
seed-length error, and failing when the bumps are exhausted. -/
def findBump (seeds : List Bytes) (prog : Bytes) : Nat → Except PdaError (Bytes × Nat)
  | 0 => .error .noViableNonce
  | k + 1 =>
      match createProgramAddress (seeds ++ [[k + 1]]) prog with
      | .ok a => .ok (a, k + 1)
      | .error .invalidSeeds => findBump seeds prog k
      | .error e => .error e

/-- `PublicKey.findProgramAddressSync`: bump search starting at 255. -/
def findProgramAddress (seeds : List Bytes) (prog : Bytes) : Except PdaError (Bytes × Nat) :=
  findBump seeds prog 255

/-! ### The scripts

Identifier strings appear below as their UTF-8 byte sequences (`Bytes`);
the sole concrete identifier used, `"job-1"`, is ASCII, so its code
points are its UTF-8 bytes. -/

/-- Byte sequence of an ASCII string literal. -/
def asciiBytes (s : String) : Bytes := s.toList.map Char.toNat

/-- An account reference of a `TransactionInstruction`, with its two
source booleans `isSigner` and `isWritable`. -/
structure AccountMeta where
  pubkey : Bytes
  isSigner : Bool
  isWritable : Bool
deriving DecidableEq, Repr

/-- A built instruction: account list, target program, binary payload. -/
structure TransactionInstruction where
  keys : List AccountMeta
  programId : Bytes
  data : Bytes
deriving DecidableEq, Repr

/-- A participant credential; only its public key matters to the builders. -/
structure Keypair where
  publicKey : Bytes
deriving DecidableEq, Repr

/-- PDA derivation of the increment-step script
(`src/client-lib/increment-worker.ts` lines 25–32, source name
`pda_contract`): seeds are the sender key bytes, the worker key bytes and
the identifier bytes. -/
def pda_contract (senderPk workerPk id : Bytes) : Except PdaError (Bytes × Nat) :=
  findProgramAddress [senderPk, workerPk, id] programId

/-- PDA derivation of the quantity script
(`src/client-lib/increment-worker.ts` lines 103–110, source name `pda`). -/
def pda_quantity (senderPk workerPk id : Bytes) : Except PdaError (Bytes × Nat) :=
  findProgramAddress [senderPk, workerPk, id] programId

/-- PDA derivation of the read script
(`src/unnamed/part_001` lines 23–30, source name `pda`). -/
def pda_read (senderPk workerPk id : Bytes) : Except PdaError (Bytes × Nat) :=
  findProgramAddress [senderPk, workerPk, id] programId

/-- Payload of the increment-step script:
`borsh.serialize(echoSchema, { variant: 4, id: id, number: 0 })`
(`src/client-lib/increment-worker.ts` lines 34–35). -/
def incrementStepData (id : Bytes) : Bytes := serializeEcho ⟨4, id, 0⟩

/-- Payload of the read script:
`borsh.serialize(echoSchema, { variant: 3, id: id, number: 0 })`
(`src/unnamed/part_001` lines 32–33). -/
def readData (id : Bytes) : Bytes := serializeEcho ⟨3, id, 0⟩

/-- Payload of the quantity script:
`borsh.serialize(echoSchema, { variant: 2, id: id, number: quantity })`
with `quantity = parseInt(process.argv[5])`
(`src/client-lib/increment-worker.ts` lines 99 and 112–113). -/
def quantityData (id : Bytes) (argv5 : String) : Bytes :=
  serializeEcho ⟨2, id, u64OfJS (parseIntJS argv5)⟩

/-- Instruction of the increment-step script
(`src/client-lib/increment-worker.ts` lines 44–69): sender signer and
writable, worker writable non-signer, derived address writable
non-signer, system program read-only. -/
def incrementWorkerInstruction (senderPk workerPk pdaAddr id : Bytes) :
    TransactionInstruction :=
  { keys := [⟨senderPk, true, true⟩, ⟨workerPk, false, true⟩,
             ⟨pdaAddr, false, true⟩, ⟨systemProgramId, false, false⟩],
    programId := programId,
    data := incrementStepData id }

/-- Instruction of the quantity script
(`src/client-lib/increment-worker.ts` lines 122–147): sender signer and
writable, worker read-only non-signer, derived address writable
non-signer, system program read-only. -/
def quantityInstruction (senderPk workerPk pdaAddr id : Bytes) (argv5 : String) :
    TransactionInstruction :=
  { keys := [⟨senderPk, true, true⟩, ⟨workerPk, false, false⟩,
             ⟨pdaAddr, false, true⟩, ⟨systemProgramId, false, false⟩],
    programId := programId,
    data := quantityData id argv5 }

/-- Instruction of the read script (`src/unnamed/part_001` lines 42–62):
sender signer and writable, worker read-only non-signer, derived address
writable non-signer; no system-program entry. -/
def readInstruction (senderPk workerPk pdaAddr id : Bytes) : TransactionInstruction :=
  { keys := [⟨senderPk, true, true⟩, ⟨workerPk, false, false⟩,
             ⟨pdaAddr, false, true⟩],
    programId := programId,
    data := readData id }

/-- End-to-end flow of the increment-step script: derive the address,
then build the instruction around it. -/
def incrementWorkerScript (senderPk workerPk id : Bytes) :
    Except PdaError TransactionInstruction :=
  (pda_contract senderPk workerPk id).map
    (fun r => incrementWorkerInstruction senderPk workerPk r.1 id)

/-- End-to-end flow of the quantity script. -/
def quantityScript (senderPk workerPk id : Bytes) (argv5 : String) :
    Except PdaError TransactionInstruction :=
  (pda_quantity senderPk workerPk id).map
    (fun r => quantityInstruction senderPk workerPk r.1 id argv5)

/-- End-to-end flow of the read script. -/
def readScript (senderPk workerPk id : Bytes) :
    Except PdaError TransactionInstruction :=
  (pda_read senderPk workerPk id).map
    (fun r => readInstruction senderPk workerPk r.1 id)

/-- Modelled from the spec: `createContract` lives in the `contract-client`
module, which is not among the source files (`src/client-lib/create-contract.ts`
line 21 only calls it).  Sections 4.1 and 8 of the spec fix its contract —
discriminant 2, payload `(2, id, quantity)`, initiator signer and
writable, counterparty read-only, derived address writable — which is
exactly the builder of the observed variant-2 quantity script. -/
def createContractInstruction (senderPk workerPk pdaAddr id : Bytes) (argv5 : String) :
    TransactionInstruction :=
  quantityInstruction senderPk workerPk pdaAddr id argv5

/-- Modelled from the spec: end-to-end flow of the create path
(`createContract` of the missing `contract-client` module): derive the
address from `(sender, worker, id)` and the program id (§4.1), then build
the create instruction around it. -/
def createContract (senderPk workerPk id : Bytes) (argv5 : String) :
    Except PdaError TransactionInstruction :=
  (findProgramAddress [senderPk, workerPk, id] programId).map
    (fun r => createContractInstruction senderPk workerPk r.1 id argv5)

/-- Signers passed by the increment-step script:
`sendAndConfirmTransaction(connection, transaction, [senderKeypair])`
(`src/client-lib/increment-worker.ts` line 73).  The worker keypair is
loaded by the script but not passed. -/
def incrementWorkerSigners (senderKp _workerKp : Keypair) : List Keypair :=
  [senderKp]

/-- Signers passed by the quantity script
(`src/client-lib/increment-worker.ts` line 151). -/
def quantitySigners (senderKp _workerKp : Keypair) : List Keypair :=
  [senderKp]

/-- Signers passed by the read script (`src/unnamed/part_001` line 66). -/
def readSigners (senderKp _workerKp : Keypair) : List Keypair :=
  [senderKp]

/-- UTF-8 bytes of the identifier `"job-1"` of the end-to-end scenario. -/
def jobId : Bytes := asciiBytes "job-1"

/-! ### Helper lemmas -/

/-- The bump search only fails with the seed-length error when one of the
base seeds exceeds 32 bytes: the bump seed it appends is a single byte. -/
theorem findBump_ne_seedError (seeds : List Bytes) (prog : Bytes)
    (h : ∀ s ∈ seeds, s.length ≤ 32) :
    ∀ n, findBump seeds prog n ≠ .error .maxSeedLength := by
  intro n
  induction n with
  | zero => simp [findBump]
  | succ k ih =>
      have hcr : createProgramAddress (seeds ++ [[k + 1]]) prog ≠ .error .maxSeedLength := by
        unfold createProgramAddress
        have hany : ((seeds ++ [[k + 1]]).any (fun s => decide (32 < s.length))) = false := by
          rw [List.any_eq_false]
          intro s hs
          rcases List.mem_append.mp hs with h1 | h2
          · simpa using Nat.not_lt.mpr (h s h1)
          · simp only [List.mem_singleton] at h2
            subst h2
            simp
        rw [hany]
        simp only [Bool.false_eq_true, if_false]
        split <;> simp
      cases hc : createProgramAddress (seeds ++ [[k + 1]]) prog with
      | ok a => simp [findBump, hc]
      | error e =>
          cases e with
          | maxSeedLength => exact absurd hc hcr
          | invalidSeeds => simpa [findBump, hc] using ih
          | noViableNonce => simp [findBump, hc]

/-! ### Claims -/

/-- C1: for every (discriminant, identifier, number) triple whose fields
fit the wire widths, the borsh encoding of the operation record is total
(a payload of the expected length always exists), injective, and decoding
with the matching fixed-layout decoder returns the original fields. -/
theorem serializeEcho_total_injective_roundtrip (r1 r2 : EchoRecord)
    (h1 : validRecord r1) (h2 : validRecord r2) :
    (serializeEcho r1).length = r1.id.length + 13 ∧
    decodeEcho (serializeEcho r1) = some r1 ∧
    (serializeEcho r1 = serializeEcho r2 → r1 = r2) := by
  obtain ⟨hv1, hL1, hn1⟩ := h1
  obtain ⟨hv2, hL2, hn2⟩ := h2
  have d1 : decodeEcho (serializeEcho r1) = some r1 := by
    have h := decodeEcho_serializeEcho r1.variant r1.number r1.id hL1
    rwa [Nat.mod_eq_of_lt hv1, Nat.mod_eq_of_lt hn1] at h
  have d2 : decodeEcho (serializeEcho r2) = some r2 := by
    have h := decodeEcho_serializeEcho r2.variant r2.number r2.id hL2
    rwa [Nat.mod_eq_of_lt hv2, Nat.mod_eq_of_lt hn2] at h
  refine ⟨?_, d1, fun he => ?_⟩
  · simp [serializeEcho, length_leBytes]
    omega
  · have hsome : some r1 = some r2 := by rw [← d1, ← d2, he]
    exact Option.some.inj hsome

/-- Witness for C1 at two concrete valid records. -/
theorem serializeEcho_total_injective_roundtrip_witness :
    (serializeEcho ⟨2, [106, 111], 5⟩).length = 15 ∧
    decodeEcho (serializeEcho ⟨2, [106, 111], 5⟩) = some ⟨2, [106, 111], 5⟩ ∧
    (serializeEcho ⟨2, [106, 111], 5⟩ = serializeEcho ⟨4, [], 0⟩ →
      (⟨2, [106, 111], 5⟩ : EchoRecord) = ⟨4, [], 0⟩) := by
  have h := serializeEcho_total_injective_roundtrip ⟨2, [106, 111], 5⟩ ⟨4, [], 0⟩
    (by decide) (by decide)
  exact ⟨h.1, h.2.1, h.2.2⟩

/-- C2: the discriminant byte is a fixed constant per operation — create
encodes 2, read encodes 3, increment-step encodes 4, and the
quantity-adjust script also encodes 2, the same value as create. -/
theorem discriminant_constants (id : Bytes) (argv5 : String) (s w a : Bytes) :
    (createContractInstruction s w a id argv5).data.head? = some 2 ∧
    (readData id).head? = some 3 ∧
    (incrementStepData id).head? = some 4 ∧
    (quantityData id argv5).head? = some 2 ∧
    (createContractInstruction s w a id argv5).data.head? = (quantityData id argv5).head? := by
  refine ⟨?_, ?_, ?_, ?_, rfl⟩ <;>
    simp [createContractInstruction, quantityInstruction, quantityData, readData,
      incrementStepData, serializeEcho]

/-- C3: every payload these scripts build has the fixed record layout —
one discriminant byte, then a 4-byte little-endian length prefix and the
string bytes, then the 8-byte little-endian 64-bit number. -/
theorem payload_fixed_layout (id : Bytes) (argv5 : String) :
    incrementStepData id = 4 :: (leBytes 4 id.length ++ (id ++ leBytes 8 0)) ∧
    readData id = 3 :: (leBytes 4 id.length ++ (id ++ leBytes 8 0)) ∧
    quantityData id argv5 =
      2 :: (leBytes 4 id.length ++ (id ++ leBytes 8 (u64OfJS (parseIntJS argv5)))) := by
  refine ⟨?_, ?_, ?_⟩ <;>
    simp [incrementStepData, readData, quantityData, serializeEcho]

/-- C9: for every identifier, the increment-step payload and the read
payload decode with a 64-bit number field of exactly zero. -/
theorem step_read_number_zero (id : Bytes) (h : id.length < 2 ^ 32) :
    decodeEcho (incrementStepData id) = some ⟨4, id, 0⟩ ∧
    decodeEcho (readData id) = some ⟨3, id, 0⟩ := by
  constructor
  · have h4 := decodeEcho_serializeEcho 4 0 id h
    simpa [incrementStepData] using h4
  · have h3 := decodeEcho_serializeEcho 3 0 id h
    simpa [readData] using h3

/-- Witness for C9 at a concrete identifier. -/
theorem step_read_number_zero_witness :
    decodeEcho (incrementStepData [106]) = some ⟨4, [106], 0⟩ ∧
    decodeEcho (readData [106]) = some ⟨3, [106], 0⟩ :=
  step_read_number_zero [106] (by decide)

/-- C7: a malformed quantity argument parses to the NaN sentinel, and the
quantity script encodes that sentinel into the fixed-width 64-bit field
of a well-formed payload without any client-side check or rejection. -/
theorem nan_quantity_encoded_unchecked (id : Bytes) (argv5 : String)
    (h : parseIntJS argv5 = .nan) :
    quantityData id argv5 =
      2 :: (leBytes 4 id.length ++ (id ++ leBytes 8 (u64OfJS .nan))) ∧
    (quantityData id argv5).length = id.length + 13 := by
  constructor
  · simp [quantityData, serializeEcho, h]
  · simp [quantityData, serializeEcho, length_leBytes]
    omega

/-- Witness for C7: the malformed argument `"abc"` parses to NaN and its
payload is still produced. -/
theorem nan_quantity_encoded_unchecked_witness :
    parseIntJS "abc" = .nan ∧
    (quantityData [106] "abc" =
       2 :: (leBytes 4 1 ++ ([106] ++ leBytes 8 (u64OfJS .nan))) ∧
     (quantityData [106] "abc").length = 14) := by
  have hp : parseIntJS "abc" = .nan := by decide
  exact ⟨hp, nan_quantity_encoded_unchecked [106] "abc" hp⟩

/-- C4: for initiator `a`, counterparty `b`, identifier `"job-1"` and
quantity `5`, the create path builds an instruction whose payload decodes
to `(2, "job-1", 5)` and whose account list marks `a` signer and
writable, `b` read-only non-signer, and the derived address — the value
plugged in by the composition of the script, stated by the last conjunct —
writable non-signer. -/
theorem create_path_instruction_shape (a b addr : Bytes) :
    decodeEcho (createContractInstruction a b addr jobId "5").data =
      some ⟨2, jobId, 5⟩ ∧
    (createContractInstruction a b addr jobId "5").keys.take 3 =
      [⟨a, true, true⟩, ⟨b, false, false⟩, ⟨addr, false, true⟩] ∧
    createContract a b jobId "5" =
      (findProgramAddress [a, b, jobId] programId).map
        (fun r => createContractInstruction a b r.1 jobId "5") := by
  refine ⟨?_, rfl, rfl⟩
  show decodeEcho (quantityData jobId "5") = some ⟨2, jobId, 5⟩
  decide

/-- C5: the derived account address is a pure deterministic function of
the (initiator, counterparty, identifier) triple and the fixed program
identifier — evaluating the derivation at equal inputs yields equal
results, and the derivation depends on nothing but those inputs. -/
theorem pda_deterministic (s1 w1 i1 s2 w2 i2 : Bytes)
    (hs : s1 = s2) (hw : w1 = w2) (hi : i1 = i2) :
    pda_contract s1 w1 i1 = pda_contract s2 w2 i2 ∧
    pda_contract s1 w1 i1 = findProgramAddress [s1, w1, i1] programId := by
  subst hs; subst hw; subst hi
  exact ⟨rfl, rfl⟩

/-- Witness for C5 at a concrete triple. -/
theorem pda_deterministic_witness :
    pda_contract [1] [2] [3] = pda_contract [1] [2] [3] ∧
    pda_contract [1] [2] [3] = findProgramAddress [[1], [2], [3]] programId :=
  pda_deterministic [1] [2] [3] [1] [2] [3] rfl rfl rfl

/-- C6: for every fixed triple, the address derivations of the
increment-step script, the quantity script and the read script compute
the identical derived address. -/
theorem pda_agree_across_scripts (s w id : Bytes) :
    pda_contract s w id = pda_quantity s w id ∧
    pda_quantity s w id = pda_read s w id :=
  ⟨rfl, rfl⟩

/-- C8: the empty identifier still encodes — with a zero 4-byte length
prefix and a decodable payload — and the address derivation with the
empty-identifier seed is still well-defined: it is a total function that
never raises the seed-validation error. -/
theorem empty_id_encode_and_derive (v n : Nat) (s w : Bytes)
    (hs : s.length ≤ 32) (hw : w.length ≤ 32) :
    serializeEcho ⟨v, [], n⟩ = v % 256 :: (0 :: 0 :: 0 :: 0 :: leBytes 8 n) ∧
    decodeEcho (serializeEcho ⟨v, [], n⟩) = some ⟨v % 256, [], n % 2 ^ 64⟩ ∧
    pda_contract s w [] ≠ .error .maxSeedLength := by
  refine ⟨by simp [serializeEcho, leBytes], decodeEcho_serializeEcho v n [] (by norm_num), ?_⟩
  show findBump [s, w, []] programId 255 ≠ .error .maxSeedLength
  apply findBump_ne_seedError
  intro x hx
  have hx3 : x = s ∨ x = w ∨ x = [] := by simpa using hx
  rcases hx3 with rfl | rfl | rfl
  · exact hs
  · exact hw
  · simp

/-- Witness for C8 at concrete 32-byte keys. -/
theorem empty_id_encode_and_derive_witness :
    serializeEcho ⟨2, [], 0⟩ = 2 % 256 :: (0 :: 0 :: 0 :: 0 :: leBytes 8 0) ∧
    decodeEcho (serializeEcho ⟨2, [], 0⟩) = some ⟨2 % 256, [], 0 % 2 ^ 64⟩ ∧
    pda_contract (List.replicate 32 1) (List.replicate 32 2) [] ≠ .error .maxSeedLength :=
  empty_id_encode_and_derive 2 0 (List.replicate 32 1) (List.replicate 32 2)
    (by decide) (by decide)

/-- C10: in every instruction the three scripts build, exactly one
account entry requires a signature and it carries the public key of the
initiator; each script signs with the initiator keypair only, and the loaded
counterparty keypair is not among the signers. -/
theorem single_signer_initiator (s w addr id : Bytes) (argv5 : String)
    (sKp wKp : Keypair) (hpk : sKp.publicKey = s) (hne : wKp ≠ sKp) :
    ((incrementWorkerInstruction s w addr id).keys.filter (·.isSigner)) =
      [⟨s, true, true⟩] ∧
    ((quantityInstruction s w addr id argv5).keys.filter (·.isSigner)) =
      [⟨s, true, true⟩] ∧
    ((readInstruction s w addr id).keys.filter (·.isSigner)) = [⟨s, true, true⟩] ∧
    incrementWorkerSigners sKp wKp = [sKp] ∧
    quantitySigners sKp wKp = [sKp] ∧
    readSigners sKp wKp = [sKp] ∧
    sKp.publicKey = s ∧
    wKp ∉ incrementWorkerSigners sKp wKp ∧
    wKp ∉ quantitySigners sKp wKp ∧
    wKp ∉ readSigners sKp wKp := by
  refine ⟨rfl, rfl, rfl, rfl, rfl, rfl, hpk, ?_, ?_, ?_⟩ <;>
    simp [incrementWorkerSigners, quantitySigners, readSigners, hne]

/-- Witness for C10 at concrete distinct credentials. -/
theorem single_signer_initiator_witness :
    ((incrementWorkerInstruction [1] [2] [3] []).keys.filter (·.isSigner)) =
      [⟨[1], true, true⟩] ∧
    ((quantityInstruction [1] [2] [3] [] "").keys.filter (·.isSigner)) =
      [⟨[1], true, true⟩] ∧
    ((readInstruction [1] [2] [3] []).keys.filter (·.isSigner)) = [⟨[1], true, true⟩] ∧
    incrementWorkerSigners ⟨[1]⟩ ⟨[2]⟩ = [⟨[1]⟩] ∧
    quantitySigners ⟨[1]⟩ ⟨[2]⟩ = [⟨[1]⟩] ∧
    readSigners ⟨[1]⟩ ⟨[2]⟩ = [⟨[1]⟩] ∧
    (⟨[1]⟩ : Keypair).publicKey = [1] ∧
    (⟨[2]⟩ : Keypair) ∉ incrementWorkerSigners ⟨[1]⟩ ⟨[2]⟩ ∧
    (⟨[2]⟩ : Keypair) ∉ quantitySigners ⟨[1]⟩ ⟨[2]⟩ ∧
    (⟨[2]⟩ : Keypair) ∉ readSigners ⟨[1]⟩ ⟨[2]⟩ :=
  single_signer_initiator [1] [2] [3] [] "" ⟨[1]⟩ ⟨[2]⟩ rfl (by decide)

end Contracts
